import Mathlib

/-!
Shallow embedding of the himawari-desktop-updater repository (Rust), developed
to check the repository's natural-language specification against the code.

The embedding translates the repository's own functions:
 * `src/margins.rs`   → `parseU32`, `tryParseParts`, `Margins.try_parse`
 * `src/output_format.rs` → `OutputFormat`
 * `src/output_level.rs`  → `OutputLevel`
 * `src/main.rs`       → `chunk_positions`, `canvasWidth`, `canvasHeight`,
                         `fileName`, `tile_url`, `copy_from`, `composite`,
                         `composeAll`, `download_latest_himawari_image`
External collaborators (reqwest HTTP, chrono date parsing, the filesystem,
the PNG decoder of the `image` crate, the system clock) are modelled as
oracles supplied to the orchestrator, mirroring how the source treats them
as opaque fallible calls.
-/

/-! ## Margins (src/margins.rs) -/

structure Margins where
  top : Nat
  right : Nat
  bottom : Nat
  left : Nat
deriving DecidableEq, Repr

/-- Whitespace predicate used by Rust `str::trim` (ASCII part). -/
def isWhite (c : Char) : Bool := c = ' ' || c = '\t' || c = '\n' || c = '\r'

/-- Model of Rust `str::trim`: strip whitespace from both ends. -/
def trimChars (cs : List Char) : List Char :=
  ((cs.dropWhile isWhite).reverse.dropWhile isWhite).reverse

/-- Model of Rust `str::split(",")` on the character list: fields between
commas, so the empty string yields one empty field and `","` yields two. -/
def splitCommaChars : List Char → List (List Char)
  | [] => [[]]
  | c :: rest =>
    let r := splitCommaChars rest
    if c = ',' then [] :: r
    else
      match r with
      | [] => [[c]]
      | h :: t => (c :: h) :: t

/-- Rust `input.split(",")` as a list of strings. -/
def splitComma (s : String) : List String :=
  (splitCommaChars s.data).map (fun cs => String.mk cs)

/-- Model of Rust `str::parse::<u32>`: optional leading `+`, then one or more
ASCII digits, value must fit in a `u32`. -/
def parseU32 (s : String) : Option Nat :=
  let t := match s.data with
    | '+' :: rest => rest
    | cs => cs
  if t.isEmpty then none
  else if t.all Char.isDigit then
    let n := t.foldl (fun acc c => acc * 10 + (c.toNat - 48)) 0
    if n < 4294967296 then some n else none
  else none

/-- One `parts.next()` of the Rust iterator in `Margins::try_parse`:
out of elements means `unwrap_or(Ok(dflt))`, otherwise the parse result. -/
def nextPart (parts : List (Option Nat)) (i : Nat) (dflt : Nat) : Option Nat :=
  (parts[i]?).getD (some dflt)

/-- Core of `Margins::try_parse` (src/margins.rs lines 34-52), after the
input has been split on `,`, trimmed and parsed per field. -/
def tryParseParts (parts : List (Option Nat)) : Option Margins := do
  let top ← nextPart parts 0 0
  let right ← nextPart parts 1 top
  let bottom ← nextPart parts 2 top
  let left ← nextPart parts 3 right
  if (parts[4]?).isSome then none
  else pure ⟨top, right, bottom, left⟩

/-- `Margins::try_parse` (src/margins.rs):
`input.split(",").map(|s| s.trim()).map(|n| n.parse::<u32>())`, then the
field defaulting chain of `tryParseParts`. -/
def Margins.try_parse (input : String) : Option Margins :=
  tryParseParts ((splitComma input).map (fun s => parseU32 (String.mk (trimChars s.data))))

/-! ## Output format and level (src/output_format.rs, src/output_level.rs) -/

inductive OutputFormat where
  | PNG : OutputFormat
  | JPEG : OutputFormat
deriving DecidableEq, Repr

/-- The `Display` impl for `OutputFormat`. -/
def OutputFormat.display : OutputFormat → String
  | .PNG => "png"
  | .JPEG => "jpeg"

structure OutputLevel where
  val : Nat
deriving DecidableEq, Repr

def OutputLevel.to_level (l : OutputLevel) : Nat := l.val

/-- The validation applied by `OutputLevelValueParser::parse_ref`. -/
def OutputLevel.valid (l : OutputLevel) : Prop :=
  l.val = 4 ∨ l.val = 8 ∨ l.val = 16 ∨ l.val = 20

/-! ## Timestamps and chrono-style formatting -/

structure Timestamp where
  year : Nat
  month : Nat
  day : Nat
  hour : Nat
  minute : Nat
  second : Nat
deriving DecidableEq, Repr

/-- chrono zero-padding to two digits (`%m`, `%d`, `%H`, `%M`, `%S`). -/
def pad2 (n : Nat) : String :=
  if n < 10 then "0" ++ toString n else toString n

/-- chrono zero-padding to four digits (`%Y`). -/
def pad4 (n : Nat) : String :=
  if n < 10 then "000" ++ toString n
  else if n < 100 then "00" ++ toString n
  else if n < 1000 then "0" ++ toString n
  else toString n

/-! ## Names, URLs and the grid planner (src/main.rs) -/

def himawariBaseUrl : String := "https://himawari8-dl.nict.go.jp/himawari8/img/D531106"

/-- Tile width in pixels (`let width = 550` in `download_latest_himawari_image`). -/
def tileWidth : Nat := 550

/-- The output file name computed in `download_latest_himawari_image`
(src/main.rs lines 263-272). -/
def fileName (store_latest_only : Bool) (fmt : OutputFormat) (t : Timestamp) : String :=
  if store_latest_only then
    "himawari8_latest." ++ fmt.display
  else
    "himawari8_" ++ pad4 t.year ++ pad2 t.month ++ pad2 t.day ++ "_"
      ++ (pad2 t.hour ++ pad2 t.minute ++ pad2 t.second) ++ "." ++ fmt.display

/-- The per-tile URL built in the download loop (src/main.rs lines 292-295). -/
def tile_url (level : Nat) (t : Timestamp) (x y : Nat) : String :=
  himawariBaseUrl ++ "/" ++ toString level ++ "d/" ++ toString tileWidth
    ++ "/" ++ pad4 t.year ++ "/" ++ pad2 t.month ++ "/" ++ pad2 t.day
    ++ "/" ++ (pad2 t.hour ++ pad2 t.minute ++ pad2 t.second)
    ++ "_" ++ toString x ++ "_" ++ toString y ++ ".png"

/-- The grid planner (src/main.rs lines 284-286):
`(0..level).flat_map(|y| (0..level).map(move |x| (x, y)))`. -/
def chunk_positions (level : Nat) : List (Nat × Nat) :=
  (List.range level).flatMap (fun y => (List.range level).map (fun x => (x, y)))

/-! ## Canvas dimensions (src/main.rs lines 309-310), in `u32` arithmetic -/

def U32 : Nat := 4294967296

/-- `let w = margins.left + (width * level) + margins.right;` with the
wrapping `u32` arithmetic of a Rust release build made explicit. -/
def canvasWidth (m : Margins) (level : Nat) : Nat :=
  ((m.left + (tileWidth * level) % U32) % U32 + m.right) % U32

/-- `let h = margins.top + (width * level) + margins.bottom;`. -/
def canvasHeight (m : Margins) (level : Nat) : Nat :=
  ((m.top + (tileWidth * level) % U32) % U32 + m.bottom) % U32

/-! ## The compositor: `ImageBuffer::new` and `GenericImage::copy_from` -/

/-- A decoded pixel block (the result of `load_from_memory_with_format`). -/
structure Block (Pix : Type) where
  w : Nat
  h : Nat
  pix : Nat → Nat → Pix

/-- The output canvas: an `ImageBuffer` of the given dimensions. -/
structure Canvas (Pix : Type) where
  w : Nat
  h : Nat
  pix : Nat → Nat → Pix

/-- `ImageBuffer::new(w, h)`: a canvas filled with the background value
(the zeroed pixel). -/
def ImageBuffer.new {Pix : Type} (w h : Nat) (bg : Pix) : Canvas Pix :=
  ⟨w, h, fun _ _ => bg⟩

/-- `canvas.copy_from(&block, ox, oy)`: copies the block's pixels into the
canvas at the given offset when the block fits, and otherwise leaves the
canvas unchanged (the `bool` result of the bounds check is ignored by the
caller in src/main.rs line 318). -/
def copy_from {Pix : Type} (c : Canvas Pix) (b : Block Pix) (ox oy : Nat) : Canvas Pix :=
  if ox + b.w ≤ c.w ∧ oy + b.h ≤ c.h then
    { c with pix := fun i j =>
        if ox ≤ i ∧ i < ox + b.w ∧ oy ≤ j ∧ j < oy + b.h then
          b.pix (i - ox) (j - oy)
        else c.pix i j }
  else c

/-- One successfully fetched and decoded tile, tagged with its grid coordinate. -/
structure Tile (Pix : Type) where
  x : Nat
  y : Nat
  block : Block Pix

/-- Placement of one tile as done in the compose loop (src/main.rs lines
316-318): offset `(margins.left + x*550, margins.top + y*550)`. -/
def placeTile {Pix : Type} (m : Margins) (c : Canvas Pix) (t : Tile Pix) : Canvas Pix :=
  copy_from c t.block (m.left + t.x * tileWidth) (m.top + t.y * tileWidth)

/-- The compose pass over a list of decoded tiles. -/
def composite {Pix : Type} (m : Margins) (c : Canvas Pix) (tiles : List (Tile Pix)) : Canvas Pix :=
  tiles.foldl (placeTile m) c

/-! ## The pipeline orchestrator (src/main.rs `download_latest_himawari_image`)

External fallible collaborators are modelled as oracles; the orchestration
logic itself (ordering of steps, the overwrite short-circuit, the
failure-to-hole conversion of the tile download loop, and the propagation
of decode errors out of the compose loop) is translated from the source. -/

/-- The distinguishable failure modes of one tile download
(`download_bytes`): transport error, timeout, or non-success HTTP status. -/
inductive FetchErr where
  | transport : FetchErr
  | timeout : FetchErr
  | status : Nat → FetchErr
deriving DecidableEq, Repr

/-- Classification of the fatal (run-aborting) errors of
`download_latest_himawari_image`, one per `?` propagation site. -/
inductive AppErr where
  | ioErr : AppErr
  | clockErr : AppErr
  | metadataErr : AppErr
  | dateParseErr : AppErr
  | decodeErr : AppErr
  | saveErr : AppErr
deriving DecidableEq, Repr

/-- The parsed `latest.json` metadata document. -/
structure LatestInfo where
  date : String
  file : String
deriving DecidableEq, Repr

/-- Oracles standing for the external collaborators used by the run:
filesystem, system clock, HTTP client, chrono date parsing, PNG decoding,
and image persistence. `fetch` is keyed by the tile URL, exactly as the
HTTP client is. -/
structure Oracles (Pix : Type) where
  dirExists : Bool
  dirCreateOk : Bool
  clock : Except Unit Nat
  latestJson : Except Unit LatestInfo
  parseDate : String → Except Unit Timestamp
  fileExists : String → Bool
  fetch : String → Except FetchErr (List Nat)
  decode : List Nat → Except Unit (Block Pix)
  background : Pix
  saveOk : String → Bool

/-- Observable outcome of one run: the returned value, whether the metadata
document was downloaded (network activity), which tile URLs were fetched,
the warnings emitted for failed tiles, and the persisted file if any. -/
structure RunResult (Pix : Type) where
  result : Except AppErr String
  metadataFetched : Bool
  tileFetches : List String
  warnings : List FetchErr
  saved : Option (String × Canvas Pix)

/-- The compose loop (src/main.rs lines 314-319): decodes each downloaded
chunk and copies it onto the canvas; a decode failure is propagated
immediately by the `?` operator. -/
def composeAll {Pix : Type} (decode : List Nat → Except Unit (Block Pix)) (m : Margins)
    (chunks : List (Nat × Nat × List Nat)) (c : Canvas Pix) : Except Unit (Canvas Pix) :=
  match chunks with
  | [] => Except.ok c
  | (x, y, data) :: rest =>
    match decode data with
    | Except.error e => Except.error e
    | Except.ok block =>
      composeAll decode m rest
        (copy_from c block (m.left + x * tileWidth) (m.top + y * tileWidth))

/-- The fetch fan-out and compose phase of `download_latest_himawari_image`
(src/main.rs lines 283-325): one download attempt per planned coordinate,
failures dropped by `filter_map` with a warning, then decode-and-copy of
each downloaded chunk onto a fresh canvas, then the save. -/
def fetchAndCompose {Pix : Type} (O : Oracles Pix) (margins : Margins) (level : Nat)
    (ts : Timestamp) (path : String) : RunResult Pix :=
  let positions := chunk_positions level
  let chunks := positions.filterMap (fun p =>
    match O.fetch (tile_url level ts p.1 p.2) with
    | Except.ok data => some (p.1, p.2, data)
    | Except.error _ => none)
  let warns := positions.filterMap (fun p =>
    match O.fetch (tile_url level ts p.1 p.2) with
    | Except.ok _ => none
    | Except.error e => some e)
  let urls := positions.map (fun p => tile_url level ts p.1 p.2)
  match composeAll O.decode margins chunks
      (ImageBuffer.new (canvasWidth margins level) (canvasHeight margins level)
        O.background) with
  | Except.error _ => ⟨Except.error AppErr.decodeErr, true, urls, warns, none⟩
  | Except.ok canvas =>
    if O.saveOk path then
      ⟨Except.ok path, true, urls, warns, some (path, canvas)⟩
    else
      ⟨Except.error AppErr.saveErr, true, urls, warns, none⟩

/-- `download_latest_himawari_image` (src/main.rs lines 228-326), with the
same argument list as the source plus the oracle bundle. -/
def download_latest_himawari_image {Pix : Type} (store_latest_only force : Bool)
    (margins : Margins) (output_dir : String) (output_format : OutputFormat)
    (output_level : OutputLevel) (O : Oracles Pix) : RunResult Pix :=
  if !O.dirExists && !O.dirCreateOk then
    ⟨Except.error AppErr.ioErr, false, [], [], none⟩
  else
    match O.clock with
    | Except.error _ => ⟨Except.error AppErr.clockErr, false, [], [], none⟩
    | Except.ok _cacheBuster =>
      match O.latestJson with
      | Except.error _ => ⟨Except.error AppErr.metadataErr, true, [], [], none⟩
      | Except.ok info =>
        match O.parseDate info.date with
        | Except.error _ => ⟨Except.error AppErr.dateParseErr, true, [], [], none⟩
        | Except.ok ts =>
          let level := output_level.to_level
          let path := output_dir ++ "/" ++ fileName store_latest_only output_format ts
          if O.fileExists path && !store_latest_only && !force then
            ⟨Except.ok path, true, [], [], none⟩
          else
            fetchAndCompose O margins level ts path

/-! ## Margins parsing: C3 -/

theorem tryParseParts_of_length_ge_five (parts : List (Option Nat)) (h : 5 ≤ parts.length) :
    tryParseParts parts = none := by
  match parts with
  | [] | [_] | [_, _] | [_, _, _] | [_, _, _, _] => simp at h
  | a :: b :: c :: d :: e :: rest =>
    rcases a with _ | a <;> rcases b with _ | b <;> rcases c with _ | c <;> rcases d with _ | d <;>
      simp [tryParseParts, nextPart]

theorem tryParseParts_of_mem_none (parts : List (Option Nat)) (h : none ∈ parts) :
    tryParseParts parts = none := by
  match parts with
  | [] => simp at h
  | [a] =>
    rcases a with _ | a <;> simp_all [tryParseParts, nextPart]
  | [a, b] =>
    rcases a with _ | a <;> rcases b with _ | b <;> simp_all [tryParseParts, nextPart]
  | [a, b, c] =>
    rcases a with _ | a <;> rcases b with _ | b <;> rcases c with _ | c <;>
      simp_all [tryParseParts, nextPart]
  | [a, b, c, d] =>
    rcases a with _ | a <;> rcases b with _ | b <;> rcases c with _ | c <;> rcases d with _ | d <;>
      simp_all [tryParseParts, nextPart]
  | a :: b :: c :: d :: e :: rest =>
    exact tryParseParts_of_length_ge_five _ (by simp)

/-- C3 counterexample: on the input `"5,10,15"` the code parses
`{top: 5, right: 10, bottom: 15, left: 10}` — the missing `left` defaults to
`right` (src/margins.rs line 40) — not `{5, 10, 15, 5}` as the claim states. -/
theorem margins_three_fields_cex :
    Margins.try_parse "5,10,15" = some ⟨5, 10, 15, 10⟩ ∧
    Margins.try_parse "5,10,15" ≠ some ⟨5, 10, 15, 5⟩ := by
  constructor <;> decide

/-- C3 (amended): `Margins.try_parse` maps `"5"` to `{5,5,5,5}`; `"5,10"` to
`{5,10,5,10}`; `"5,10,15"` to `{5,10,15,10}` (the absent `left` defaults to
`right`); `"5,10,15,20"` to `{5,10,15,20}`; any input with five or more
comma-separated fields to a parse error; and any input containing a
non-numeric field to a parse error. -/
theorem margins_try_parse_cases :
    Margins.try_parse "5" = some ⟨5, 5, 5, 5⟩
    ∧ Margins.try_parse "5,10" = some ⟨5, 10, 5, 10⟩
    ∧ Margins.try_parse "5,10,15" = some ⟨5, 10, 15, 10⟩
    ∧ Margins.try_parse "5,10,15,20" = some ⟨5, 10, 15, 20⟩
    ∧ (∀ input : String, 5 ≤ (splitComma input).length → Margins.try_parse input = none)
    ∧ (∀ input : String,
        (∃ f ∈ splitComma input, parseU32 (String.mk (trimChars f.data)) = none) →
        Margins.try_parse input = none) := by
  refine ⟨by decide, by decide, by decide, by decide, ?_, ?_⟩
  · intro input h
    apply tryParseParts_of_length_ge_five
    simpa using h
  · rintro input ⟨f, hf, hnone⟩
    apply tryParseParts_of_mem_none
    exact List.mem_map.mpr ⟨f, hf, hnone⟩

theorem margins_try_parse_cases_witness :
    Margins.try_parse "1,2,3,4,5" = none ∧ Margins.try_parse "5,x" = none :=
  ⟨margins_try_parse_cases.2.2.2.2.1 "1,2,3,4,5" (by decide),
   margins_try_parse_cases.2.2.2.2.2 "5,x" ⟨"x", by decide, by decide⟩⟩

/-! ## The grid planner: C5 -/

theorem chunk_positions_length (L : Nat) : (chunk_positions L).length = L * L := by
  simp [chunk_positions, Function.comp_def, List.map_const', List.sum_replicate, smul_eq_mul]

theorem chunk_positions_mem (L : Nat) (p : Nat × Nat) :
    p ∈ chunk_positions L ↔ p.1 < L ∧ p.2 < L := by
  rcases p with ⟨x, y⟩
  simp only [chunk_positions, List.mem_flatMap, List.mem_map, List.mem_range, Prod.mk.injEq]
  constructor
  · rintro ⟨a, ha, b, hb, rfl, rfl⟩
    exact ⟨hb, ha⟩
  · rintro ⟨hx, hy⟩
    exact ⟨y, hy, x, hx, rfl, rfl⟩

theorem chunk_positions_nodup (L : Nat) : (chunk_positions L).Nodup := by
  apply List.nodup_flatMap.2
  constructor
  · intro y _hy
    exact (List.nodup_range L).map (fun a b h => congrArg Prod.fst h)
  · apply (List.pairwise_lt_range L).imp
    intro y1 y2 hlt
    rw [Function.onFun, List.disjoint_left]
    intro p hp1 hp2
    simp only [List.mem_map, List.mem_range] at hp1 hp2
    obtain ⟨x1, _, rfl⟩ := hp1
    obtain ⟨x2, _, h2⟩ := hp2
    have : y2 = y1 := congrArg Prod.snd h2
    omega

/-- C5: for every valid resolution level `L ∈ {4, 8, 16, 20}`, the planner
produces exactly `L*L` coordinate pairs, with no duplicates, covering the
full grid `[0,L) × [0,L)`. -/
theorem planner_covers_grid (l : OutputLevel) (_hv : l.valid) :
    (chunk_positions l.to_level).length = l.to_level * l.to_level
    ∧ (chunk_positions l.to_level).Nodup
    ∧ ∀ p : Nat × Nat, p ∈ chunk_positions l.to_level ↔ p.1 < l.to_level ∧ p.2 < l.to_level :=
  ⟨chunk_positions_length _, chunk_positions_nodup _, chunk_positions_mem _⟩

theorem planner_covers_grid_witness :
    (chunk_positions 4).length = 4 * 4 ∧ (0, 0) ∈ chunk_positions 4 :=
  ⟨(planner_covers_grid ⟨4⟩ (Or.inl rfl)).1,
   ((planner_covers_grid ⟨4⟩ (Or.inl rfl)).2.2 (0, 0)).mpr (by decide)⟩

/-! ## Canvas dimensions: C6 -/

/-- C6: for every valid level and margins (whose `u32` sums do not wrap),
the canvas has width `margins.left + margins.right + level*550` and height
`margins.top + margins.bottom + level*550`; in particular level 4 with
all-zero margins yields a 2200×2200 canvas. -/
theorem canvas_dimensions (m : Margins) (l : OutputLevel) (_hv : l.valid)
    (hw : m.left + m.right + l.to_level * tileWidth < U32)
    (hh : m.top + m.bottom + l.to_level * tileWidth < U32) :
    canvasWidth m l.to_level = m.left + m.right + l.to_level * tileWidth
    ∧ canvasHeight m l.to_level = m.top + m.bottom + l.to_level * tileWidth
    ∧ canvasWidth ⟨0, 0, 0, 0⟩ 4 = 2200 ∧ canvasHeight ⟨0, 0, 0, 0⟩ 4 = 2200 := by
  refine ⟨?_, ?_, by decide, by decide⟩ <;>
    · simp only [canvasWidth, canvasHeight, tileWidth, U32] at hw hh ⊢
      omega

theorem canvas_dimensions_witness :
    canvasWidth ⟨1, 2, 3, 4⟩ 4 = 4 + 2 + 4 * 550 ∧
    canvasHeight ⟨1, 2, 3, 4⟩ 4 = 1 + 3 + 4 * 550 :=
  ⟨(canvas_dimensions ⟨1, 2, 3, 4⟩ ⟨4⟩ (Or.inl rfl) (by decide) (by decide)).1,
   (canvas_dimensions ⟨1, 2, 3, 4⟩ ⟨4⟩ (Or.inl rfl) (by decide) (by decide)).2.1⟩

/-! ## Output filename: C9 -/

/-- The filename pattern as worded in the spec: fixed name
`himawari8_latest.<ext>` under store-latest-only, else
`himawari8_<YYYYMMDD>_<HHMMSS>.<ext>`, with `<ext>` `png` or `jpeg`
according to the configured output format. -/
def specFileName (store_latest_only : Bool) (fmt : OutputFormat) (t : Timestamp) : String :=
  let ext : String := match fmt with | .PNG => "png" | .JPEG => "jpeg"
  if store_latest_only then
    "himawari8_latest." ++ ext
  else
    "himawari8_" ++ (pad4 t.year ++ pad2 t.month ++ pad2 t.day) ++ "_"
      ++ (pad2 t.hour ++ pad2 t.minute ++ pad2 t.second) ++ "." ++ ext

/-- C9: for every resolved timestamp and output format, the output filename
is `himawari8_latest.<ext>` when store-latest-only is set and the
timestamp-derived `himawari8_<YYYYMMDD>_<HHMMSS>.<ext>` otherwise, with
`<ext>` determined by the output format (`png` or `jpeg`). -/
theorem fileName_matches_spec :
    (∀ s fmt t, fileName s fmt t = specFileName s fmt t)
    ∧ OutputFormat.display .PNG = "png" ∧ OutputFormat.display .JPEG = "jpeg"
    ∧ fileName true .JPEG ⟨2024, 3, 1, 4, 20, 0⟩ = "himawari8_latest.jpeg"
    ∧ fileName false .PNG ⟨2024, 3, 1, 4, 20, 0⟩ = "himawari8_20240301_042000.png" := by
  refine ⟨?_, rfl, rfl, by decide, by decide⟩
  intro s fmt t
  cases s <;> cases fmt <;>
    simp [fileName, specFileName, OutputFormat.display, String.append_assoc]

/-! ## Compositor lemmas: dimensions, locality and commutation -/

theorem Canvas.ext' {Pix : Type} {c1 c2 : Canvas Pix} (hw : c1.w = c2.w) (hh : c1.h = c2.h)
    (hp : ∀ i j, c1.pix i j = c2.pix i j) : c1 = c2 := by
  cases c1 with | mk w1 h1 p1 =>
  cases c2 with | mk w2 h2 p2 =>
  cases hw
  cases hh
  have hfun : p1 = p2 := funext fun i => funext fun j => hp i j
  rw [hfun]

theorem copy_from_w {Pix : Type} (c : Canvas Pix) (b : Block Pix) (ox oy : Nat) :
    (copy_from c b ox oy).w = c.w := by
  unfold copy_from
  split <;> rfl

theorem copy_from_h {Pix : Type} (c : Canvas Pix) (b : Block Pix) (ox oy : Nat) :
    (copy_from c b ox oy).h = c.h := by
  unfold copy_from
  split <;> rfl

theorem copy_from_unfit {Pix : Type} (c : Canvas Pix) (b : Block Pix) (ox oy : Nat)
    (h : ¬ (ox + b.w ≤ c.w ∧ oy + b.h ≤ c.h)) : copy_from c b ox oy = c := by
  unfold copy_from
  rw [if_neg h]

theorem copy_from_fit_pix {Pix : Type} (c : Canvas Pix) (b : Block Pix) (ox oy : Nat)
    (hfit : ox + b.w ≤ c.w ∧ oy + b.h ≤ c.h) (i j : Nat) :
    (copy_from c b ox oy).pix i j =
      if ox ≤ i ∧ i < ox + b.w ∧ oy ≤ j ∧ j < oy + b.h then b.pix (i - ox) (j - oy)
      else c.pix i j := by
  unfold copy_from
  rw [if_pos hfit]

theorem copy_from_pix_outside {Pix : Type} (c : Canvas Pix) (b : Block Pix) (ox oy i j : Nat)
    (h : ¬ (ox ≤ i ∧ i < ox + b.w ∧ oy ≤ j ∧ j < oy + b.h)) :
    (copy_from c b ox oy).pix i j = c.pix i j := by
  by_cases hfit : ox + b.w ≤ c.w ∧ oy + b.h ≤ c.h
  · rw [copy_from_fit_pix c b ox oy hfit, if_neg h]
  · rw [copy_from_unfit c b ox oy hfit]

theorem copy_from_comm {Pix : Type} (c : Canvas Pix) (b1 b2 : Block Pix)
    (o1x o1y o2x o2y : Nat)
    (hd : o1x + b1.w ≤ o2x ∨ o2x + b2.w ≤ o1x ∨ o1y + b1.h ≤ o2y ∨ o2y + b2.h ≤ o1y) :
    copy_from (copy_from c b1 o1x o1y) b2 o2x o2y
      = copy_from (copy_from c b2 o2x o2y) b1 o1x o1y := by
  by_cases g1 : o1x + b1.w ≤ c.w ∧ o1y + b1.h ≤ c.h
  · by_cases g2 : o2x + b2.w ≤ c.w ∧ o2y + b2.h ≤ c.h
    · have g2L : o2x + b2.w ≤ (copy_from c b1 o1x o1y).w ∧
          o2y + b2.h ≤ (copy_from c b1 o1x o1y).h := by
        rw [copy_from_w, copy_from_h]; exact g2
      have g1R : o1x + b1.w ≤ (copy_from c b2 o2x o2y).w ∧
          o1y + b1.h ≤ (copy_from c b2 o2x o2y).h := by
        rw [copy_from_w, copy_from_h]; exact g1
      apply Canvas.ext'
      · rw [copy_from_w, copy_from_w, copy_from_w, copy_from_w]
      · rw [copy_from_h, copy_from_h, copy_from_h, copy_from_h]
      · intro i j
        rw [copy_from_fit_pix _ b2 o2x o2y g2L, copy_from_fit_pix _ b1 o1x o1y g1R,
            copy_from_fit_pix c b1 o1x o1y g1, copy_from_fit_pix c b2 o2x o2y g2]
        by_cases hr1 : o1x ≤ i ∧ i < o1x + b1.w ∧ o1y ≤ j ∧ j < o1y + b1.h
        · by_cases hr2 : o2x ≤ i ∧ i < o2x + b2.w ∧ o2y ≤ j ∧ j < o2y + b2.h
          · exact absurd hd (by omega)
          · rw [if_neg hr2, if_pos hr1, if_pos hr1]
        · by_cases hr2 : o2x ≤ i ∧ i < o2x + b2.w ∧ o2y ≤ j ∧ j < o2y + b2.h
          · rw [if_pos hr2, if_neg hr1, if_pos hr2]
          · rw [if_neg hr2, if_neg hr1, if_neg hr1, if_neg hr2]
    · have e1 : copy_from (copy_from c b1 o1x o1y) b2 o2x o2y = copy_from c b1 o1x o1y := by
        apply copy_from_unfit
        rw [copy_from_w, copy_from_h]; exact g2
      rw [e1, copy_from_unfit c b2 o2x o2y g2]
  · by_cases g2 : o2x + b2.w ≤ c.w ∧ o2y + b2.h ≤ c.h
    · have e1 : copy_from (copy_from c b2 o2x o2y) b1 o1x o1y = copy_from c b2 o2x o2y := by
        apply copy_from_unfit
        rw [copy_from_w, copy_from_h]; exact g1
      rw [e1, copy_from_unfit c b1 o1x o1y g1]
    · have e1 : copy_from (copy_from c b1 o1x o1y) b2 o2x o2y = copy_from c b1 o1x o1y := by
        apply copy_from_unfit
        rw [copy_from_w, copy_from_h]; exact g2
      rw [e1, copy_from_unfit c b1 o1x o1y g1, copy_from_unfit c b2 o2x o2y g2,
          copy_from_unfit c b1 o1x o1y g1]

theorem placeTile_comm {Pix : Type} (m : Margins) (c : Canvas Pix) (t1 t2 : Tile Pix)
    (h1 : t1.block.w = tileWidth ∧ t1.block.h = tileWidth)
    (h2 : t2.block.w = tileWidth ∧ t2.block.h = tileWidth)
    (hne : (t1.x, t1.y) ≠ (t2.x, t2.y)) :
    placeTile m (placeTile m c t1) t2 = placeTile m (placeTile m c t2) t1 := by
  unfold placeTile
  apply copy_from_comm
  obtain ⟨h1w, h1h⟩ := h1
  obtain ⟨h2w, h2h⟩ := h2
  rw [h1w, h1h, h2w, h2h]
  have hxy : t1.x ≠ t2.x ∨ t1.y ≠ t2.y := by
    by_contra hc
    push_neg at hc
    exact hne (by rw [hc.1, hc.2])
  unfold tileWidth
  rcases hxy with h | h <;> omega

/-! ## Order-independence of composition: C2 -/

/-- C2: compositor placement is order-independent — for any fixed set of
successfully fetched tiles at distinct coordinates (each a 550×550 block),
composing them onto the canvas in any permutation of their arrival order
yields a pixel-identical final canvas. -/
theorem composite_order_independent {Pix : Type} (m : Margins) (c : Canvas Pix)
    (tiles1 tiles2 : List (Tile Pix)) (hperm : tiles1.Perm tiles2)
    (hsz : ∀ t ∈ tiles1, t.block.w = tileWidth ∧ t.block.h = tileWidth)
    (hdist : tiles1.Pairwise (fun s t => (s.x, s.y) ≠ (t.x, t.y))) :
    composite m c tiles1 = composite m c tiles2 := by
  unfold composite
  apply hperm.foldl_eq'
  intro t1 ht1 t2 ht2 z
  by_cases heq : t1 = t2
  · rw [heq]
  · have hsym : Symmetric (fun s t : Tile Pix => (s.x, s.y) ≠ (t.x, t.y)) :=
      fun _ _ h => Ne.symm h
    exact placeTile_comm m z t1 t2 (hsz t1 ht1) (hsz t2 ht2)
      (hdist.forall hsym ht1 ht2 heq)

def demoBlockA : Block Nat := ⟨550, 550, fun _ _ => 1⟩

def demoBlockB : Block Nat := ⟨550, 550, fun _ _ => 2⟩

def demoTileA : Tile Nat := ⟨0, 0, demoBlockA⟩

def demoTileB : Tile Nat := ⟨1, 0, demoBlockB⟩

theorem composite_order_independent_witness :
    composite ⟨0, 0, 0, 0⟩ (ImageBuffer.new 2200 2200 0) [demoTileA, demoTileB]
      = composite ⟨0, 0, 0, 0⟩ (ImageBuffer.new 2200 2200 0) [demoTileB, demoTileA] := by
  apply composite_order_independent ⟨0, 0, 0, 0⟩ (ImageBuffer.new 2200 2200 0)
    [demoTileA, demoTileB] [demoTileB, demoTileA] (List.Perm.swap demoTileB demoTileA [])
  · intro t ht
    rcases ht with _ | ⟨_, ht⟩
    · exact ⟨rfl, rfl⟩
    · rcases ht with _ | ⟨_, ht⟩
      · exact ⟨rfl, rfl⟩
      · cases ht
  · refine List.Pairwise.cons ?_ (List.pairwise_singleton _ _)
    intro t ht
    rcases ht with _ | ⟨_, ht⟩
    · decide
    · cases ht

/-! ## Holes left by missing tiles: C7 -/

theorem composite_pix_untouched {Pix : Type} (m : Margins) (c : Canvas Pix)
    (tiles : List (Tile Pix)) (i j : Nat)
    (h : ∀ t ∈ tiles,
      ¬ (m.left + t.x * tileWidth ≤ i ∧ i < m.left + t.x * tileWidth + t.block.w ∧
         m.top + t.y * tileWidth ≤ j ∧ j < m.top + t.y * tileWidth + t.block.h)) :
    (composite m c tiles).pix i j = c.pix i j := by
  induction tiles generalizing c with
  | nil => rfl
  | cons t ts ih =>
    have step : composite m c (t :: ts) = composite m (placeTile m c t) ts := rfl
    rw [step, ih (placeTile m c t) (fun t' ht' => h t' (List.mem_cons_of_mem _ ht'))]
    exact copy_from_pix_outside c t.block _ _ i j (h t (List.mem_cons_self _ _))

/-- C7: for every grid coordinate `(x, y)` whose tile is absent from the
fetched set, the composed canvas equals the background value on the whole
550×550 region at offset `(margins.left + x*550, margins.top + y*550)`, and
adding that tile back would change no pixel outside that region. -/
theorem missing_tile_leaves_hole {Pix : Type} (m : Margins) (bg : Pix) (level : Nat)
    (tiles : List (Tile Pix)) (x y : Nat) (_hx : x < level) (_hy : y < level)
    (habs : ∀ t ∈ tiles, (t.x, t.y) ≠ (x, y))
    (hsz : ∀ t ∈ tiles, t.block.w = tileWidth ∧ t.block.h = tileWidth) :
    (∀ i j,
      m.left + x * tileWidth ≤ i → i < m.left + x * tileWidth + tileWidth →
      m.top + y * tileWidth ≤ j → j < m.top + y * tileWidth + tileWidth →
      (composite m (ImageBuffer.new (canvasWidth m level) (canvasHeight m level) bg)
        tiles).pix i j = bg)
    ∧ (∀ b : Block Pix, b.w = tileWidth → b.h = tileWidth → ∀ i j,
      ¬ (m.left + x * tileWidth ≤ i ∧ i < m.left + x * tileWidth + tileWidth ∧
         m.top + y * tileWidth ≤ j ∧ j < m.top + y * tileWidth + tileWidth) →
      (composite m (ImageBuffer.new (canvasWidth m level) (canvasHeight m level) bg)
          (tiles ++ [⟨x, y, b⟩])).pix i j
        = (composite m (ImageBuffer.new (canvasWidth m level) (canvasHeight m level) bg)
          tiles).pix i j) := by
  constructor
  · intro i j hi1 hi2 hj1 hj2
    rw [composite_pix_untouched]
    · rfl
    · intro t ht
      obtain ⟨hw, hh⟩ := hsz t ht
      have hne := habs t ht
      have hxy : t.x ≠ x ∨ t.y ≠ y := by
        by_contra hc
        push_neg at hc
        exact hne (by rw [hc.1, hc.2])
      rw [hw, hh]
      unfold tileWidth at *
      rcases hxy with h | h <;> omega
  · intro b hbw hbh i j hout
    have happ : composite m (ImageBuffer.new (canvasWidth m level) (canvasHeight m level) bg)
        (tiles ++ [⟨x, y, b⟩])
        = placeTile m (composite m
            (ImageBuffer.new (canvasWidth m level) (canvasHeight m level) bg) tiles)
          ⟨x, y, b⟩ := by
      unfold composite
      rw [List.foldl_append]
      rfl
    rw [happ]
    apply copy_from_pix_outside
    rw [hbw, hbh]
    exact hout

theorem missing_tile_leaves_hole_witness :
    (composite ⟨0, 0, 0, 0⟩ (ImageBuffer.new (canvasWidth ⟨0, 0, 0, 0⟩ 4)
        (canvasHeight ⟨0, 0, 0, 0⟩ 4) 0) [demoTileA]).pix 600 600 = 0
    ∧ (composite ⟨0, 0, 0, 0⟩ (ImageBuffer.new (canvasWidth ⟨0, 0, 0, 0⟩ 4)
        (canvasHeight ⟨0, 0, 0, 0⟩ 4) 0) ([demoTileA] ++ [⟨1, 1, demoBlockB⟩])).pix 0 0
      = (composite ⟨0, 0, 0, 0⟩ (ImageBuffer.new (canvasWidth ⟨0, 0, 0, 0⟩ 4)
        (canvasHeight ⟨0, 0, 0, 0⟩ 4) 0) [demoTileA]).pix 0 0 := by
  have habs : ∀ t ∈ [demoTileA], (t.x, t.y) ≠ ((1 : Nat), (1 : Nat)) := by
    intro t ht
    rcases ht with _ | ⟨_, ht⟩
    · decide
    · cases ht
  have hsz : ∀ t ∈ [demoTileA], t.block.w = tileWidth ∧ t.block.h = tileWidth := by
    intro t ht
    rcases ht with _ | ⟨_, ht⟩
    · exact ⟨rfl, rfl⟩
    · cases ht
  have h := missing_tile_leaves_hole ⟨0, 0, 0, 0⟩ (0 : Nat) 4 [demoTileA] 1 1
    (by decide) (by decide) habs hsz
  exact ⟨h.1 600 600 (by decide) (by decide) (by decide) (by decide),
    h.2 demoBlockB rfl rfl 0 0 (by decide)⟩

/-! ## Orchestrator lemmas -/

theorem run_reduces {Pix : Type} (slo fc : Bool) (m : Margins) (dir : String)
    (fmt : OutputFormat) (lvl : OutputLevel) (O : Oracles Pix)
    (n : Nat) (info : LatestInfo) (ts : Timestamp)
    (hdir : O.dirExists = true) (hclock : O.clock = Except.ok n)
    (hjson : O.latestJson = Except.ok info) (hdate : O.parseDate info.date = Except.ok ts) :
    download_latest_himawari_image slo fc m dir fmt lvl O =
      if O.fileExists (dir ++ "/" ++ fileName slo fmt ts) && !slo && !fc then
        ⟨Except.ok (dir ++ "/" ++ fileName slo fmt ts), true, [], [], none⟩
      else
        fetchAndCompose O m lvl.to_level ts (dir ++ "/" ++ fileName slo fmt ts) := by
  unfold download_latest_himawari_image
  rw [hdir, hclock, hjson]
  simp only [hdate, Bool.not_true, Bool.false_and, Bool.false_eq_true, if_false]

theorem composeAll_error_of_bad_chunk {Pix : Type}
    (decode : List Nat → Except Unit (Block Pix)) (m : Margins)
    (chunks : List (Nat × Nat × List Nat)) (c : Canvas Pix)
    (h : ∃ ch ∈ chunks, ∃ e, decode ch.2.2 = Except.error e) :
    composeAll decode m chunks c = Except.error () := by
  induction chunks generalizing c with
  | nil =>
    obtain ⟨ch, hch, _⟩ := h
    cases hch
  | cons ch rest ih =>
    obtain ⟨x, y, data⟩ := ch
    obtain ⟨ch', hch', e', he'⟩ := h
    rcases hch' with _ | ⟨_, hch'⟩
    · unfold composeAll
      rw [he']
    · unfold composeAll
      cases hdec : decode data with
      | error e => rfl
      | ok block => exact ih _ ⟨ch', hch', e', he'⟩

theorem composeAll_ok_of_all_good {Pix : Type}
    (decode : List Nat → Except Unit (Block Pix)) (m : Margins)
    (chunks : List (Nat × Nat × List Nat)) (c : Canvas Pix)
    (h : ∀ ch ∈ chunks, ∃ b, decode ch.2.2 = Except.ok b) :
    ∃ c2, composeAll decode m chunks c = Except.ok c2 := by
  induction chunks generalizing c with
  | nil => exact ⟨c, rfl⟩
  | cons ch rest ih =>
    obtain ⟨x, y, data⟩ := ch
    obtain ⟨b, hb⟩ := h _ (List.mem_cons_self _ _)
    unfold composeAll
    rw [hb]
    exact ih _ (fun ch' hch' => h ch' (List.mem_cons_of_mem _ hch'))

theorem fetchAndCompose_congr {Pix : Type} (O1 O2 : Oracles Pix) (m : Margins)
    (level : Nat) (ts : Timestamp) (path : String)
    (hdec : O1.decode = O2.decode) (hbg : O1.background = O2.background)
    (hsave : O1.saveOk = O2.saveOk)
    (hf : ∀ u, (O1.fetch u).toOption = (O2.fetch u).toOption) :
    (fetchAndCompose O1 m level ts path).result = (fetchAndCompose O2 m level ts path).result
    ∧ (fetchAndCompose O1 m level ts path).saved
      = (fetchAndCompose O2 m level ts path).saved := by
  have hchunks : (chunk_positions level).filterMap (fun p =>
        match O1.fetch (tile_url level ts p.1 p.2) with
        | Except.ok data => some (p.1, p.2, data)
        | Except.error _ => none)
      = (chunk_positions level).filterMap (fun p =>
        match O2.fetch (tile_url level ts p.1 p.2) with
        | Except.ok data => some (p.1, p.2, data)
        | Except.error _ => none) := by
    apply List.filterMap_congr
    intro p _
    have h := hf (tile_url level ts p.1 p.2)
    cases hA : O1.fetch (tile_url level ts p.1 p.2) with
    | error e1 =>
      cases hB : O2.fetch (tile_url level ts p.1 p.2) with
      | error e2 => rfl
      | ok d2 => rw [hA, hB] at h; simp [Except.toOption] at h
    | ok d1 =>
      cases hB : O2.fetch (tile_url level ts p.1 p.2) with
      | error e2 => rw [hA, hB] at h; simp [Except.toOption] at h
      | ok d2 =>
        rw [hA, hB] at h
        simp only [Except.toOption, Option.some.injEq] at h
        rw [h]
  simp only [fetchAndCompose]
  rw [hchunks, hdec, hbg, hsave]
  cases hc : composeAll O2.decode m ((chunk_positions level).filterMap (fun p =>
      match O2.fetch (tile_url level ts p.1 p.2) with
      | Except.ok data => some (p.1, p.2, data)
      | Except.error _ => none))
      (ImageBuffer.new (canvasWidth m level) (canvasHeight m level) O2.background) with
  | error e => exact ⟨rfl, rfl⟩
  | ok canvas =>
    cases hs : O2.saveOk path <;> simp only [hs] <;> exact ⟨rfl, rfl⟩

theorem chunk_mem_fetch_ok {Pix : Type} (O : Oracles Pix) (level : Nat) (ts : Timestamp)
    (ch : Nat × Nat × List Nat)
    (hch : ch ∈ (chunk_positions level).filterMap (fun p =>
      match O.fetch (tile_url level ts p.1 p.2) with
      | Except.ok data => some (p.1, p.2, data)
      | Except.error _ => none)) :
    ∃ p ∈ chunk_positions level, O.fetch (tile_url level ts p.1 p.2) = Except.ok ch.2.2 := by
  obtain ⟨p, hp, hsome⟩ := List.mem_filterMap.mp hch
  cases hfetch : O.fetch (tile_url level ts p.1 p.2) with
  | error e => rw [hfetch] at hsome; cases hsome
  | ok data =>
    rw [hfetch] at hsome
    cases hsome
    exact ⟨p, hp, hfetch⟩

theorem fetchAndCompose_ok {Pix : Type} (O : Oracles Pix) (m : Margins) (level : Nat)
    (ts : Timestamp) (path : String)
    (hdecode : ∀ u d, O.fetch u = Except.ok d → ∃ b, O.decode d = Except.ok b)
    (hsave : O.saveOk path = true) :
    (fetchAndCompose O m level ts path).result = Except.ok path := by
  simp only [fetchAndCompose]
  obtain ⟨c2, hc2⟩ := composeAll_ok_of_all_good O.decode m
    ((chunk_positions level).filterMap (fun p =>
      match O.fetch (tile_url level ts p.1 p.2) with
      | Except.ok data => some (p.1, p.2, data)
      | Except.error _ => none))
    (ImageBuffer.new (canvasWidth m level) (canvasHeight m level) O.background)
    (fun ch hch => by
      obtain ⟨p, _, hfetch⟩ := chunk_mem_fetch_ok O level ts ch hch
      exact hdecode _ _ hfetch)
  rw [hc2]
  simp only [hsave, if_true]

theorem fetchAndCompose_warnings {Pix : Type} (O : Oracles Pix) (m : Margins) (level : Nat)
    (ts : Timestamp) (path : String) :
    (fetchAndCompose O m level ts path).warnings
      = (chunk_positions level).filterMap (fun p =>
        match O.fetch (tile_url level ts p.1 p.2) with
        | Except.ok _ => none
        | Except.error e => some e) := by
  simp only [fetchAndCompose]
  cases composeAll O.decode m ((chunk_positions level).filterMap (fun p =>
      match O.fetch (tile_url level ts p.1 p.2) with
      | Except.ok data => some (p.1, p.2, data)
      | Except.error _ => none))
      (ImageBuffer.new (canvasWidth m level) (canvasHeight m level) O.background) with
  | error e => rfl
  | ok canvas => cases O.saveOk path <;> rfl

/-! ## Decode failures abort the run: C1 -/

/-- C1 (amended): tile transport and status failures are soft (caught in the
download loop and turned into holes), but an image decode failure is not
treated identically: decoding happens in the compose loop and its failure is
propagated by `?` (src/main.rs line 315) — whenever any downloaded chunk
fails to decode, the run aborts with the fatal `decodeErr`. -/
theorem decode_failure_aborts {Pix : Type} (slo fc : Bool) (m : Margins) (dir : String)
    (fmt : OutputFormat) (lvl : OutputLevel) (O : Oracles Pix)
    (n : Nat) (info : LatestInfo) (ts : Timestamp)
    (hdir : O.dirExists = true) (hclock : O.clock = Except.ok n)
    (hjson : O.latestJson = Except.ok info) (hdate : O.parseDate info.date = Except.ok ts)
    (hnoskip : (O.fileExists (dir ++ "/" ++ fileName slo fmt ts) && !slo && !fc) = false)
    (hbad : ∃ p ∈ chunk_positions lvl.to_level, ∃ d,
      O.fetch (tile_url lvl.to_level ts p.1 p.2) = Except.ok d ∧
      ∃ e, O.decode d = Except.error e) :
    (download_latest_himawari_image slo fc m dir fmt lvl O).result
      = Except.error AppErr.decodeErr := by
  rw [run_reduces slo fc m dir fmt lvl O n info ts hdir hclock hjson hdate, hnoskip]
  simp only [Bool.false_eq_true, if_false, fetchAndCompose]
  obtain ⟨p, hp, d, hfetch, e, hdec⟩ := hbad
  have hmem : (p.1, p.2, d) ∈ (chunk_positions lvl.to_level).filterMap (fun p =>
      match O.fetch (tile_url lvl.to_level ts p.1 p.2) with
      | Except.ok data => some (p.1, p.2, data)
      | Except.error _ => none) :=
    List.mem_filterMap.mpr ⟨p, hp, by rw [hfetch]⟩
  rw [composeAll_error_of_bad_chunk O.decode m _ _ ⟨(p.1, p.2, d), hmem, e, hdec⟩]

/-- Shared concrete oracle bundle for witnesses: everything succeeds. -/
def oDemo : Oracles Nat :=
  { dirExists := true
    dirCreateOk := true
    clock := Except.ok 0
    latestJson := Except.ok ⟨"2024-03-01 04:20:00", "20240301042000_0_0.png"⟩
    parseDate := fun _ => Except.ok ⟨2024, 3, 1, 4, 20, 0⟩
    fileExists := fun _ => false
    fetch := fun _ => Except.ok [0]
    decode := fun _ => Except.ok ⟨550, 550, fun _ _ => 0⟩
    background := 0
    saveOk := fun _ => true }

/-- C1 counterexample: a concrete run in which every tile downloads but the
bytes fail to decode; contrary to the claim, the decode failure is not
converted to a hole — the run aborts with a fatal error. -/
theorem decode_failure_aborts_cex :
    (download_latest_himawari_image false false ⟨0, 0, 0, 0⟩ "out" OutputFormat.JPEG ⟨4⟩
      { oDemo with decode := fun _ => Except.error () }).result
      = Except.error AppErr.decodeErr := rfl

theorem decode_failure_aborts_witness :
    (download_latest_himawari_image false false ⟨1, 2, 3, 4⟩ "w1" OutputFormat.PNG ⟨4⟩
      { oDemo with decode := fun _ => Except.error () }).result
      = Except.error AppErr.decodeErr :=
  decode_failure_aborts false false ⟨1, 2, 3, 4⟩ "w1" OutputFormat.PNG ⟨4⟩
    { oDemo with decode := fun _ => Except.error () }
    0 ⟨"2024-03-01 04:20:00", "20240301042000_0_0.png"⟩ ⟨2024, 3, 1, 4, 20, 0⟩
    rfl rfl rfl rfl rfl
    ⟨(0, 0), by decide, [0], rfl, (), rfl⟩

/-! ## Tile download failures are soft: C8 -/

/-- C8: for every tile coordinate, a download failure (transport, timeout or
non-success status) is caught and converted to an absence: (i) the run's
result and saved image depend on the fetch oracle only through which tiles
succeeded and with what bytes — swapping any failure kind (timeout included)
for any other changes nothing; (ii) every failed planned fetch contributes
its error to the warning log; (iii) if all downloaded chunks decode and the
save succeeds, the run returns Ok no matter which or how many tile fetches
failed — a tile failure never becomes a fatal run error. -/
theorem tile_failure_soft {Pix : Type} (slo fc : Bool) (m : Margins) (dir : String)
    (fmt : OutputFormat) (lvl : OutputLevel) (O : Oracles Pix)
    (n : Nat) (info : LatestInfo) (ts : Timestamp)
    (hdir : O.dirExists = true) (hclock : O.clock = Except.ok n)
    (hjson : O.latestJson = Except.ok info) (hdate : O.parseDate info.date = Except.ok ts)
    (hnoskip : (O.fileExists (dir ++ "/" ++ fileName slo fmt ts) && !slo && !fc) = false) :
    (∀ f2 : String → Except FetchErr (List Nat),
      (∀ u, (O.fetch u).toOption = (f2 u).toOption) →
      (download_latest_himawari_image slo fc m dir fmt lvl { O with fetch := f2 }).result
        = (download_latest_himawari_image slo fc m dir fmt lvl O).result
      ∧ (download_latest_himawari_image slo fc m dir fmt lvl { O with fetch := f2 }).saved
        = (download_latest_himawari_image slo fc m dir fmt lvl O).saved)
    ∧ (∀ p ∈ chunk_positions lvl.to_level, ∀ e : FetchErr,
        O.fetch (tile_url lvl.to_level ts p.1 p.2) = Except.error e →
        e ∈ (download_latest_himawari_image slo fc m dir fmt lvl O).warnings)
    ∧ ((∀ u d, O.fetch u = Except.ok d → ∃ b, O.decode d = Except.ok b) →
       O.saveOk (dir ++ "/" ++ fileName slo fmt ts) = true →
       (download_latest_himawari_image slo fc m dir fmt lvl O).result
         = Except.ok (dir ++ "/" ++ fileName slo fmt ts)) := by
  have hrunO := run_reduces slo fc m dir fmt lvl O n info ts hdir hclock hjson hdate
  refine ⟨?_, ?_, ?_⟩
  · intro f2 hf
    have hrun2 := run_reduces slo fc m dir fmt lvl { O with fetch := f2 } n info ts
      hdir hclock hjson hdate
    rw [hrunO, hrun2, hnoskip]
    simp only [Bool.false_eq_true, if_false]
    exact fetchAndCompose_congr { O with fetch := f2 } O m lvl.to_level ts
      (dir ++ "/" ++ fileName slo fmt ts) rfl rfl rfl (fun u => (hf u).symm)
  · intro p hp e hfetch
    rw [hrunO, hnoskip]
    simp only [Bool.false_eq_true, if_false, fetchAndCompose_warnings]
    exact List.mem_filterMap.mpr ⟨p, hp, by rw [hfetch]⟩
  · intro hdecode hsave
    rw [hrunO, hnoskip]
    simp only [Bool.false_eq_true, if_false]
    exact fetchAndCompose_ok O m lvl.to_level ts _ hdecode hsave

/-- Oracle in which every single tile download times out. -/
def oTimeout : Oracles Nat := { oDemo with fetch := fun _ => Except.error FetchErr.timeout }

theorem tile_failure_soft_witness :
    ((download_latest_himawari_image true false ⟨0, 0, 0, 0⟩ "w8" OutputFormat.JPEG ⟨4⟩
        { oTimeout with fetch := fun _ => Except.error FetchErr.transport }).result
      = (download_latest_himawari_image true false ⟨0, 0, 0, 0⟩ "w8" OutputFormat.JPEG ⟨4⟩
        oTimeout).result)
    ∧ (download_latest_himawari_image true false ⟨0, 0, 0, 0⟩ "w8" OutputFormat.JPEG ⟨4⟩
        oTimeout).result
      = Except.ok ("w8" ++ "/" ++ fileName true OutputFormat.JPEG ⟨2024, 3, 1, 4, 20, 0⟩) := by
  have h := tile_failure_soft true false ⟨0, 0, 0, 0⟩ "w8" OutputFormat.JPEG ⟨4⟩ oTimeout
    0 ⟨"2024-03-01 04:20:00", "20240301042000_0_0.png"⟩ ⟨2024, 3, 1, 4, 20, 0⟩
    rfl rfl rfl rfl rfl
  exact ⟨(h.1 (fun _ => Except.error FetchErr.transport) (fun _ => rfl)).1,
    h.2.2 (fun u d hd => nomatch hd) rfl⟩

/-! ## The overwrite short-circuit: C4 and C10 -/

/-- C4 (amended): if the output file already exists, store-latest-only is
false and force is false, the run reports success with the existing path,
performs zero tile fetches, emits no warnings and writes nothing; the
metadata download, however, has already happened — the output name depends
on the resolved timestamp, so the existence check necessarily follows the
metadata fetch and the run is not entirely free of network work. -/
theorem overwrite_short_circuit {Pix : Type} (m : Margins) (dir : String)
    (fmt : OutputFormat) (lvl : OutputLevel) (O : Oracles Pix)
    (n : Nat) (info : LatestInfo) (ts : Timestamp)
    (hdir : O.dirExists = true) (hclock : O.clock = Except.ok n)
    (hjson : O.latestJson = Except.ok info) (hdate : O.parseDate info.date = Except.ok ts)
    (hex : O.fileExists (dir ++ "/" ++ fileName false fmt ts) = true) :
    download_latest_himawari_image false false m dir fmt lvl O =
      ⟨Except.ok (dir ++ "/" ++ fileName false fmt ts), true, [], [], none⟩ := by
  rw [run_reduces false false m dir fmt lvl O n info ts hdir hclock hjson hdate, hex]
  rfl

/-- Oracle for which the output file already exists. -/
def oSkip : Oracles Nat := { oDemo with fileExists := fun _ => true }

/-- C4 counterexample: at this concrete input the short-circuit fires — the
run reports success, performs zero tile fetches and writes nothing — yet the
metadata document has already been downloaded (`metadataFetched = true`), so
the successful run did do network work, contrary to the claim's "without
doing any network work". -/
theorem overwrite_short_circuit_cex :
    (download_latest_himawari_image false false ⟨0, 0, 0, 0⟩ "out" OutputFormat.JPEG ⟨4⟩ oSkip)
      = ⟨Except.ok ("out" ++ "/" ++ fileName false OutputFormat.JPEG ⟨2024, 3, 1, 4, 20, 0⟩),
         true, [], [], none⟩ := rfl

theorem overwrite_short_circuit_witness :
    download_latest_himawari_image false false ⟨1, 1, 1, 1⟩ "w4" OutputFormat.PNG ⟨8⟩ oSkip
      = ⟨Except.ok ("w4" ++ "/" ++ fileName false OutputFormat.PNG ⟨2024, 3, 1, 4, 20, 0⟩),
         true, [], [], none⟩ :=
  overwrite_short_circuit ⟨1, 1, 1, 1⟩ "w4" OutputFormat.PNG ⟨8⟩ oSkip
    0 ⟨"2024-03-01 04:20:00", "20240301042000_0_0.png"⟩ ⟨2024, 3, 1, 4, 20, 0⟩
    rfl rfl rfl rfl rfl

/-- C10: the short-circuited run returns Ok carrying the computed output
path of the pre-existing file — exactly the same path a full successful
fetch-and-persist run returns — so the optional wallpaper step receives a
valid path in both cases. -/
theorem run_returns_same_path {Pix : Type} (slo fc : Bool) (m : Margins) (dir : String)
    (fmt : OutputFormat) (lvl : OutputLevel) (O : Oracles Pix)
    (n : Nat) (info : LatestInfo) (ts : Timestamp)
    (hdir : O.dirExists = true) (hclock : O.clock = Except.ok n)
    (hjson : O.latestJson = Except.ok info) (hdate : O.parseDate info.date = Except.ok ts) :
    ((O.fileExists (dir ++ "/" ++ fileName slo fmt ts) && !slo && !fc) = true →
      (download_latest_himawari_image slo fc m dir fmt lvl O).result
        = Except.ok (dir ++ "/" ++ fileName slo fmt ts))
    ∧ ((O.fileExists (dir ++ "/" ++ fileName slo fmt ts) && !slo && !fc) = false →
       (∀ u d, O.fetch u = Except.ok d → ∃ b, O.decode d = Except.ok b) →
       O.saveOk (dir ++ "/" ++ fileName slo fmt ts) = true →
       (download_latest_himawari_image slo fc m dir fmt lvl O).result
         = Except.ok (dir ++ "/" ++ fileName slo fmt ts)) := by
  rw [run_reduces slo fc m dir fmt lvl O n info ts hdir hclock hjson hdate]
  constructor
  · intro hskip
    rw [hskip]
    rfl
  · intro hnoskip hdecode hsave
    rw [hnoskip]
    simp only [Bool.false_eq_true, if_false]
    exact fetchAndCompose_ok O m lvl.to_level ts _ hdecode hsave

theorem run_returns_same_path_witness :
    (download_latest_himawari_image false false ⟨0, 0, 0, 0⟩ "w10" OutputFormat.JPEG ⟨4⟩
        oSkip).result
      = Except.ok ("w10" ++ "/" ++ fileName false OutputFormat.JPEG ⟨2024, 3, 1, 4, 20, 0⟩)
    ∧ (download_latest_himawari_image false false ⟨0, 0, 0, 0⟩ "w10" OutputFormat.JPEG ⟨4⟩
        oDemo).result
      = Except.ok ("w10" ++ "/" ++ fileName false OutputFormat.JPEG ⟨2024, 3, 1, 4, 20, 0⟩) :=
  ⟨(run_returns_same_path false false ⟨0, 0, 0, 0⟩ "w10" OutputFormat.JPEG ⟨4⟩ oSkip
      0 ⟨"2024-03-01 04:20:00", "20240301042000_0_0.png"⟩ ⟨2024, 3, 1, 4, 20, 0⟩
      rfl rfl rfl rfl).1 rfl,
   (run_returns_same_path false false ⟨0, 0, 0, 0⟩ "w10" OutputFormat.JPEG ⟨4⟩ oDemo
      0 ⟨"2024-03-01 04:20:00", "20240301042000_0_0.png"⟩ ⟨2024, 3, 1, 4, 20, 0⟩
      rfl rfl rfl rfl).2 rfl (fun _ _ _ => ⟨⟨550, 550, fun _ _ => 0⟩, rfl⟩) rfl⟩
